import Mathlib

/-!
Verification of the CGSpins payment-reconciliation and spin-outcome core.

The definitions below are shallow embeddings of the Python source:

* `config.py` — package table, level thresholds, point constants, NFT pools;
* `src/utils/helpers.py` — the game-logic module that `main.py` actually
  imports (`from src.utils import calculate_spin_result, ...`): level
  calculation, spin-point accounting, spin-outcome calculation, referral
  bonus;
* `src/services/payment.py` — the pending-payment sweep;
* `main.py` — the `check_new_ton_payments` reconciliation step, the
  `handle_slot_machine` spin handler, and the `process_successful_payment`
  Stars-payment handler.

Telegram I/O, logging, and database persistence calls are modelled by their
effect on the in-memory state that the handlers read and write
(`user_data`, `pending_ton_payments`, `processed_transactions`,
`recent_transaction_cache`); a database write that can raise is modelled by
an explicit failure flag, since the Python code catches such exceptions at
a single point.
-/

namespace CGSpins

/-- Substring test: `listInfix needle hay` is Python's `needle in hay`
on the character lists of the two strings. -/
def listInfix (needle : List Char) : List Char → Bool
  | [] => needle.isEmpty
  | c :: t => needle.isPrefixOf (c :: t) || listInfix needle t

/-- Python's `needle in hay` on strings. -/
def containsSub (hay needle : String) : Bool :=
  listInfix needle.toList hay.toList

/-! ## config.py -/

/-- `config.HIT_POINTS`: points awarded for each 777 hit. -/
def HIT_POINTS : Nat := 10

/-- `config.TON_PAYMENT_EXPIRY`: pending-payment TTL in seconds. -/
def TON_PAYMENT_EXPIRY : Nat := 3600

/-- One entry of `config.PACKAGES` (the fields the core reads). -/
structure Package where
  name : String
  priceStars : Nat
  nano : Nat
  spins : Nat
  hitsRequired : Nat
  deriving DecidableEq

/-- `config.PACKAGES`, keyed by the lowercase package key. -/
def PACKAGES (key : String) : Option Package :=
  if key = "bronze" then some ⟨"Bronze", 450, 2000000000, 30, 1⟩
  else if key = "silver" then some ⟨"Silver", 900, 4000000000, 60, 3⟩
  else if key = "gold" then some ⟨"Gold", 5000, 24000000000, 300, 10⟩
  else if key = "black" then some ⟨"Black", 10000, 49000000000, 600, 25⟩
  else none

/-- `config.PACKAGE_POINTS.get(key, 0)`. -/
def PACKAGE_POINTS (key : String) : Nat :=
  if key = "bronze" then 5
  else if key = "silver" then 15
  else if key = "gold" then 50
  else if key = "black" then 100
  else 0

/-- `config.LEVELS` in dict insertion order: name, min points, max points. -/
def LEVELS : List (String × Nat × Nat) :=
  [("Spinner", 0, 19), ("Collector", 20, 49), ("VIP", 50, 99),
   ("High-Roller", 100, 999)]

/-- An apostrophe character, used in one NFT name. -/
def apos : Char := Char.ofNat 39

/-- `config.NFT_DROPS`: the NFT pool of each package name. -/
def NFT_DROPS (packageName : String) : Option (List String) :=
  if packageName = "Bronze" then some
    ["Bow Tie", "Bunny Muffin", "Candy Cane", "Crystal Ball", "Easter Egg",
     "Eternal Candle", "Evil Eye", "Ginger Cookie", "Hanging Star", "Hex Pot",
     "Jelly Bunny", "Jester Hat", "Jingle Bells", "Jolly Chimp",
     "Joyful Bundle", "Light Sword", "Love Candle", "Love Potion",
     "Lush Bouquet", "Pet Snake", "Restless Jar", "Sakura Flower",
     "Santa Hat", "Skull Flower", "Sleigh Bell", "Snoop Cigar", "Snoop Dogg",
     "Snow Globe", "Spiced Wine", "Spy Agaric", "Star Notepad",
     "Stellar Rocket", "Swag Bag", "Tama Gadget", "Top Hat", "Trapped Heart",
     "Valentine Box", "Winter Wreath"]
  else if packageName = "Silver" then some
    ["Bonded Ring", "Diamond Ring", "Electric Skull", "Gem Signet",
     "Genie Lamp", "Kissed Frog", "Low Rider", "Magic Potion", "Neko Helmet",
     "Vintage Cigar", "Swiss Watch", "Sharp Tongue", "Signet Ring",
     "Toy Bear", "Westside Sign"]
  else if packageName = "Gold" then some
    ["Heroic Helmet", "Precious Peach", "Durov" ++ ⟨[apos]⟩ ++ "s Cap"]
  else if packageName = "Black" then some
    ["Heart Locket", "Plush Pepe"]
  else none

/-! ## Data model -/

/-- The per-user record kept in `user_data` (the fields the core reads and
writes). `package = "None"` is the no-active-package sentinel used by the
source. -/
structure UserAccount where
  package : String := "None"
  paymentMethod : Option String := none
  spinsAvailable : Nat := 0
  totalSpins : Nat := 0
  hits : Nat := 0
  spinPoints : Nat := 0
  level : String := "Spinner"
  nfts : List String := []
  referredBy : Option Nat := none
  referrals : Nat := 0
  allTimeSpins : Nat := 0
  allTimeHits : Nat := 0
  deriving DecidableEq

/-- The zero-state record `check_new_ton_payments` creates for a paying user
who never sent `/start` (main.py lines 607-624). -/
def defaultAccount : UserAccount := {}

/-- `user_data`: the process-wide map from user id to account record,
as an association list iterated in insertion order. -/
abbrev UserStore := List (Nat × UserAccount)

/-- Dictionary lookup `user_data.get(uid)`. -/
def lookupUser (d : UserStore) (uid : Nat) : Option UserAccount :=
  (d.find? (fun e => e.1 == uid)).map (·.2)

/-- In-place mutation of `user_data[uid]` when present (Python's
`if uid in user_data: user_data[uid][...] = ...`). -/
def updateUser (d : UserStore) (uid : Nat) (f : UserAccount → UserAccount) :
    UserStore :=
  d.map (fun e => if e.1 == uid then (e.1, f e.2) else e)

/-- Dictionary assignment `user_data[uid] = v`. -/
def setUser (d : UserStore) (uid : Nat) (v : UserAccount) : UserStore :=
  if (lookupUser d uid).isSome then updateUser d uid (fun _ => v)
  else d ++ [(uid, v)]

/-! ## src/utils/helpers.py — game logic imported by main.py -/

/-- `calculate_level` (helpers.py lines 106-111): the first configured level
whose range contains `points`, defaulting to `"High-Roller"`. -/
def calculate_level (points : Nat) : String :=
  ((LEVELS.find? (fun l => decide (l.2.1 ≤ points ∧ points ≤ l.2.2))).map
    (·.1)).getD "High-Roller"

/-- `add_spin_points` (helpers.py lines 135-149): adds points to
`user_data[uid]`, recomputes the stored level, and reports whether the level
changed. No-op when `uid` is absent. -/
def add_spin_points (d : UserStore) (uid : Nat) (points : Nat) :
    UserStore × Bool :=
  match lookupUser d uid with
  | none => (d, false)
  | some user =>
    let newPoints := user.spinPoints + points
    let newLevel := calculate_level newPoints
    let d' := updateUser d uid
      (fun u => { u with spinPoints := newPoints, level := newLevel })
    (d', newLevel != user.level)

/-- The `required_hits` table inside `calculate_spin_result`
(helpers.py lines 173-178); `none` models the `KeyError` on any other
package name. -/
def required_hits (packageName : String) : Option Nat :=
  if packageName = "Bronze" then some 1
  else if packageName = "Silver" then some 3
  else if packageName = "Gold" then some 10
  else if packageName = "Black" then some 25
  else none

/-- The visible part of `calculate_spin_result`'s return value
(win flag, hits granted this spin, NFT-earned flag). -/
structure SpinResult where
  isWinning : Bool
  hits : Nat
  nftEarned : Bool
  deriving DecidableEq

/-- `calculate_spin_result` (helpers.py lines 152-194), the version `main.py`
imports through `src.utils`, at its call site in `handle_slot_machine` where
the `user` argument aliases `user_data[user_id]`. A win is `dice_value ==
64`; a win always awards `HIT_POINTS` and recomputes the level; with an
active package it increments `hits` by exactly 1 and reports NFT-earned when
the total reaches the package's requirement. `none` models the `KeyError`
raised for a package name outside the `required_hits` table. -/
def calculate_spin_result (diceValue : Nat) (user : UserAccount) :
    Option (SpinResult × UserAccount) :=
  if diceValue ≠ 64 then some (⟨false, 0, false⟩, user)
  else
    let pts := user.spinPoints + HIT_POINTS
    let u1 : UserAccount :=
      { user with spinPoints := pts, level := calculate_level pts }
    if u1.package ≠ "None" then
      let u2 : UserAccount := { u1 with hits := u1.hits + 1 }
      match required_hits u2.package with
      | none => none
      | some needed =>
        if needed ≤ u2.hits then some (⟨true, 1, true⟩, u2)
        else some (⟨true, 1, false⟩, u2)
    else some (⟨true, 0, false⟩, u1)

/-- `process_referral_bonus` (helpers.py lines 56-76): the referrer (when
present) gains the package-specific reward and one referral; the referred
user (when present) gains a 2-point welcome bonus. Neither update recomputes
the stored level. -/
def calculate_referral_reward (packageName : String) : Nat :=
  if packageName = "Bronze" then 5
  else if packageName = "Silver" then 10
  else if packageName = "Gold" then 25
  else if packageName = "Black" then 50
  else 5

/-- `process_referral_bonus` (helpers.py lines 56-76). -/
def process_referral_bonus (d : UserStore) (referrerId referredId : Nat)
    (packageName : String) : UserStore :=
  let d1 :=
    match lookupUser d referrerId with
    | some _ =>
      let reward := calculate_referral_reward packageName
      updateUser d referrerId (fun u =>
        { u with spinPoints := u.spinPoints + reward,
                 referrals := u.referrals + 1 })
    | none => d
  match lookupUser d1 referredId with
  | some _ =>
    updateUser d1 referredId (fun u => { u with spinPoints := u.spinPoints + 2 })
  | none => d1

/-! ## main.py — handle_slot_machine (lines 1310-1477) -/

/-- `handle_slot_machine` restricted to the account-state transition
(maintenance-mode/ban checks and Telegram replies are outside the account
state). `nftIdx` stands for the index drawn by `random.choice` inside
`send_nft_reward_message`; the drawn NFT is appended after the NFT-earned
reset, using the package held before the reset. `none` models an uncaught
exception (unknown package name, or drawing from an empty pool). -/
def handle_slot_machine (nftIdx : Nat) (diceValue : Nat) (user : UserAccount) :
    Option UserAccount :=
  if user.spinsAvailable = 0 then some user
  else
    match calculate_spin_result diceValue user with
    | none => none
    | some (r, u0) =>
      if r.nftEarned then
        let originalPackage := u0.package
        let u1 : UserAccount := { u0 with allTimeSpins := u0.allTimeSpins + 1 }
        let u2 : UserAccount :=
          if 0 < r.hits then { u1 with allTimeHits := u1.allTimeHits + r.hits }
          else u1
        let u3 : UserAccount :=
          { u2 with spinsAvailable := 0, totalSpins := 0, package := "None",
                    paymentMethod := none, hits := 0 }
        let u4 : UserAccount := { u3 with level := calculate_level u3.spinPoints }
        match NFT_DROPS originalPackage with
        | some pool =>
          match pool.get? (nftIdx % pool.length) with
          | some nft => some { u4 with nfts := u4.nfts ++ [nft] }
          | none => none
        | none => some u4
      else
        let u1 : UserAccount :=
          { u0 with spinsAvailable := u0.spinsAvailable - 1,
                    totalSpins := u0.totalSpins + 1,
                    allTimeSpins := u0.allTimeSpins + 1 }
        let u2 : UserAccount :=
          if 0 < r.hits then { u1 with allTimeHits := u1.allTimeHits + r.hits }
          else u1
        if u2.spinsAvailable = 0 then
          some { u2 with package := "None", paymentMethod := none, hits := 0,
                         totalSpins := 0,
                         level := calculate_level u2.spinPoints }
        else some u2

/-! ## src/services/payment.py — pending payments -/

/-- One entry of `pending_ton_payments` (payment.py lines 28-37). -/
structure PendingPayment where
  package : String
  expectedAmount : Nat
  timestamp : Int
  verified : Bool := false
  processedTx : Option String := none
  sourceWallet : Option String := none
  attempts : Nat := 0
  paymentId : String
  deriving DecidableEq

/-- `cleanup_old_payments` (payment.py lines 48-73): drops every pending
intent whose age exceeds `TON_PAYMENT_EXPIRY`, and every intent whose user
currently has an active package or paid with Stars; the rest are kept in
order. -/
def cleanup_old_payments (now : Int) (pending : List (Nat × PendingPayment))
    (d : UserStore) : List (Nat × PendingPayment) :=
  pending.filter (fun e =>
    let expired : Bool :=
      decide ((TON_PAYMENT_EXPIRY : Int) < now - e.2.timestamp)
    let superseded : Bool :=
      match lookupUser d e.1 with
      | some u => u.package != "None" || u.paymentMethod == some "stars"
      | none => false
    !(expired || superseded))

/-! ## main.py — check_new_ton_payments (lines 466-720) -/

/-- The incoming-message part of a raw indexer transaction. -/
structure InMsg where
  msgType : String
  value : Nat
  text : String
  source : String
  deriving DecidableEq

/-- A raw transaction from the chain indexer (the fields
`check_new_ton_payments` reads). -/
structure RawTx where
  hash : String
  success : Bool := true
  inMsg : Option InMsg := none
  deriving DecidableEq

/-- Extraction of (amount, memo text, source wallet) from a raw
transaction (main.py lines 521-532). -/
def txDetails (tx : RawTx) : Nat × String × String :=
  match tx.inMsg with
  | some m =>
    if tx.success && (m.msgType == "int_msg") then (m.value, m.text, m.source)
    else (0, "", "")
  | none => (0, "", "")

/-- Result of `check_transaction_confirmation` as `check_new_ton_payments`
reads it: the `is_confirmed` flag and whether the `error` key is set. -/
structure Confirmation where
  isConfirmed : Bool
  errored : Bool
  deriving DecidableEq

/-- The state `check_new_ton_payments` reads and writes: the account store,
the pending-payment map, the processed-transaction ledger, and the
short-lived `recent_transaction_cache` seen-set. -/
structure RState where
  userData : UserStore
  pending : List (Nat × PendingPayment)
  processed : List String
  recentCache : List String
  deriving DecidableEq

/-- The periodic cache cleanup at the top of `check_new_ton_payments`
(main.py lines 477-481, every 300 seconds). -/
def clearRecentCache (s : RState) : RState := { s with recentCache := [] }

/-- `expected_id in tx_text or f"cgspins_{expected_id}" in tx_text`
(main.py lines 539 and 582). -/
def matchesPaymentId (pid text : String) : Bool :=
  containsSub text pid || containsSub text ("cgspins_" ++ pid)

/-- The amounts of all pending intents (main.py line 502). -/
def pendingAmounts (p : List (Nat × PendingPayment)) : List Nat :=
  p.map (fun e => e.2.expectedAmount)

/-- The payment ids of all pending intents (main.py line 501). -/
def pendingIds (p : List (Nat × PendingPayment)) : List String :=
  p.map (fun e => e.2.paymentId)

/-- The pre-filter's payment-id relevance test (main.py line 539). -/
def relevantIdFound (p : List (Nat × PendingPayment)) (text : String) : Bool :=
  (pendingIds p).any (fun pid => matchesPaymentId pid text)

/-- The account mutation for a confirmed TON payment
(main.py lines 627-633). -/
def tonActivation (pkg : Package) (u : UserAccount) : UserAccount :=
  { u with package := pkg.name, paymentMethod := some "ton",
           spinsAvailable := pkg.spins, totalSpins := 0, hits := 0 }

/-- The `if amount_match:` block of `check_new_ton_payments`
(main.py lines 589-706). `processed_transactions.add(tx_hash)` precedes the
try-block; on any exception inside it (database write failure, modelled by
`dbFail`, or a `KeyError` on an unknown package key) line 705 removes the
hash again and re-raises, so the failing outcome leaves `processed`,
`userData` and `pending` unchanged. On success: the account is activated
(creating a zero-state record for a user who never sent `/start`), the
referral bonus runs when the buyer has a `referred_by` pointer, the pending
intent is deleted, and the hash stays in the ledger. Notification failures
are caught locally (lines 681-701) and change no state. The
influencer-commission sub-step writes only to the influencer ledger, which
is outside this state. -/
def applyConfirmedMatch (dbFail : Bool) (s : RState) (txHash : String)
    (uid : Nat) (info : PendingPayment) : RState :=
  if dbFail then s
  else
    match PACKAGES info.package with
    | none => s
    | some pkg =>
      let d0 := s.userData
      let d1 := if (lookupUser d0 uid).isSome then d0
                else setUser d0 uid defaultAccount
      let d2 := updateUser d1 uid (tonActivation pkg)
      let d3 :=
        match (lookupUser d2 uid).bind (·.referredBy) with
        | some referrerId => process_referral_bonus d2 referrerId uid pkg.name
        | none => d2
      { s with userData := d3,
               pending := s.pending.filter (fun e => e.1 != uid),
               processed := txHash :: s.processed }

/-- The per-pending-intent matching loop (main.py lines 576-711): the first
intent whose payment id occurs in the memo and whose expected amount is
within 1 nano of the transfer amount is applied, and the loop stops (either
by `break` on success or by the propagating exception on failure). -/
def matchPending (dbFail : Bool) (s : RState) (txHash : String) (amount : Nat)
    (text : String) : List (Nat × PendingPayment) → RState
  | [] => s
  | (uid, info) :: rest =>
    if matchesPaymentId info.paymentId text then
      if ((info.expectedAmount : Int) - (amount : Int)).natAbs ≤ 1 then
        applyConfirmedMatch dbFail s txHash uid info
      else matchPending dbFail s txHash amount text rest
    else matchPending dbFail s txHash amount text rest

/-- One transaction's trip through `check_new_ton_payments`
(main.py lines 483-711): the empty-pending early return; the pre-filter
against the processed ledger and the seen-cache (with the cache recording
every newly seen hash); the amount/memo relevance filter; the confirmation
check (`conf` is the indexer oracle, `none` meaning the 5-second timeout
fired); and the matching loop. -/
def processTx (conf : String → Option Confirmation) (dbFail : Bool)
    (s : RState) (tx : RawTx) : RState :=
  if s.pending.isEmpty then s
  else if tx.hash == "" then s
  else if s.processed.contains tx.hash || s.recentCache.contains tx.hash then s
  else
    let s1 : RState := { s with recentCache := tx.hash :: s.recentCache }
    let amount := (txDetails tx).1
    let text := (txDetails tx).2.1
    if text == "" || !((pendingAmounts s1.pending).contains amount) then s1
    else if !(relevantIdFound s1.pending text) then s1
    else
      match conf tx.hash with
      | none => s1
      | some c =>
        if c.errored || !c.isConfirmed then s1
        else matchPending dbFail s1 tx.hash amount text s1.pending

/-! ## main.py — process_successful_payment (lines 1481-1601, Stars rail) -/

/-- Python's `str.split('_')` on character lists. -/
def pySplit (sep : Char) : List Char → List (List Char)
  | [] => [[]]
  | c :: t =>
    let r := pySplit sep t
    if c = sep then [] :: r
    else
      match r with
      | [] => [[c]]
      | h :: t2 => (c :: h) :: t2

/-- `invoice_payload.split('_')`. -/
def splitUnderscore (s : String) : List String :=
  (pySplit '_' s.toList).map (fun l => ⟨l⟩)

/-- `process_successful_payment` (main.py lines 1481-1601) as a transition
on the reconciler state: parse the package key out of the invoice payload,
validate the Stars amount, activate the package with
`payment_method = "stars"`, run the referral bonus, award
`PACKAGE_POINTS` through `add_spin_points`, record a synthetic
`stars_...` id in the processed ledger, and drop any pending TON intent of
the same user. Early validation failures change nothing; `none` models the
`KeyError` when the paying user is missing from `user_data`. -/
def process_successful_payment (s : RState) (uid : Nat) (payload : String)
    (totalAmount : Nat) (now : Nat) : Option RState :=
  let parts := splitUnderscore payload
  if parts.length < 3 then some s
  else
    match parts.get? 1 with
    | none => some s
    | some packageType =>
      match PACKAGES packageType with
      | none => some s
      | some pkg =>
        if totalAmount ≠ pkg.priceStars then some s
        else
          match lookupUser s.userData uid with
          | none => none
          | some _ =>
            let d1 := updateUser s.userData uid (fun u =>
              { u with package := pkg.name, paymentMethod := some "stars",
                       spinsAvailable := pkg.spins, totalSpins := 0,
                       hits := 0 })
            let d2 :=
              match (lookupUser d1 uid).bind (·.referredBy) with
              | some referrerId =>
                process_referral_bonus d1 referrerId uid pkg.name
              | none => d1
            let d3 := (add_spin_points d2 uid (PACKAGE_POINTS packageType)).1
            let starsId := "stars_" ++ toString uid ++ "_" ++ packageType ++
              "_" ++ toString now
            some { s with userData := d3,
                          processed := starsId :: s.processed,
                          pending := s.pending.filter (fun e => e.1 != uid) }

/-! ## Iteration of winning spins -/

/-- `k` consecutive winning spins (dice value 64) through
`handle_slot_machine`. -/
def iterateWins (nftIdx : Nat) : Nat → UserAccount → Option UserAccount
  | 0, u => some u
  | k + 1, u => (handle_slot_machine nftIdx 64 u).bind (iterateWins nftIdx k)

/-! ## Concrete fixtures used to evaluate the theorems -/

/-- A fresh buyer account (zero state, no referral). -/
def exBuyer : UserAccount := {}

/-- A pending bronze intent with payment id `ab12cd34`. -/
def exIntent : PendingPayment :=
  { package := "bronze", expectedAmount := 2000000000, timestamp := 0,
    paymentId := "ab12cd34" }

/-- Reconciler state: one buyer, one pending bronze intent, empty ledgers. -/
def exState : RState :=
  { userData := [(7, exBuyer)], pending := [(7, exIntent)], processed := [],
    recentCache := [] }

/-- A raw transaction paying the bronze intent exactly, memo carrying the
payment id. -/
def exTxExact : RawTx :=
  { hash := "H1",
    inMsg := some { msgType := "int_msg", value := 2000000000,
                    text := "ab12cd34", source := "SRC" } }

/-- The same transfer, 1 nano short (within the ±1 tolerance of
main.py line 586). -/
def exTxOff1 : RawTx :=
  { hash := "H2",
    inMsg := some { msgType := "int_msg", value := 1999999999,
                    text := "ab12cd34", source := "SRC" } }

/-- Confirmation oracle: every hash confirmed. -/
def confAlways : String → Option Confirmation :=
  fun _ => some { isConfirmed := true, errored := false }

/-- Confirmation oracle: every hash still unconfirmed. -/
def confNever : String → Option Confirmation :=
  fun _ => some { isConfirmed := false, errored := false }

/-- The bronze entry of `PACKAGES`. -/
def exPkg : Package := ⟨"Bronze", 450, 2000000000, 30, 1⟩

/-! ## Store lemmas -/

theorem lookupUser_updateUser_self (d : UserStore) (uid : Nat)
    (f : UserAccount → UserAccount) :
    lookupUser (updateUser d uid f) uid = (lookupUser d uid).map f := by
  induction d with
  | nil => simp [lookupUser, updateUser]
  | cons e t ih =>
    by_cases h1 : e.1 = uid <;>
      simp_all [lookupUser, updateUser, List.find?_cons, beq_iff_eq]

theorem lookupUser_updateUser_ne (d : UserStore) (uid x : Nat)
    (f : UserAccount → UserAccount) (hx : x ≠ uid) :
    lookupUser (updateUser d uid f) x = lookupUser d x := by
  induction d with
  | nil => simp [lookupUser, updateUser]
  | cons e t ih =>
    by_cases h1 : e.1 = uid <;> by_cases h2 : e.1 = x <;>
      simp_all [lookupUser, updateUser, List.find?_cons, beq_iff_eq]

theorem find?_eq_none_of_lookup_none (d : UserStore) (uid : Nat)
    (h : lookupUser d uid = none) :
    d.find? (fun e => e.1 == uid) = none := by
  unfold lookupUser at h
  cases hd : d.find? (fun e => e.1 == uid) with
  | none => rfl
  | some p => rw [hd] at h; simp at h

theorem lookupUser_append_single (d : UserStore) (uid x : Nat)
    (v : UserAccount) (h : lookupUser d uid = none) :
    lookupUser (d ++ [(uid, v)]) x =
      if x = uid then some v else lookupUser d x := by
  unfold lookupUser
  rw [List.find?_append]
  by_cases hx : x = uid
  · subst hx
    rw [find?_eq_none_of_lookup_none d x h]
    simp [List.find?_cons]
  · cases hd : d.find? (fun e => e.1 == x) with
    | some p => simp [hd, hx]
    | none =>
      have hb : (uid == x) = false := by
        simp only [beq_eq_false_iff_ne, ne_eq]
        exact fun hh => hx hh.symm
      simp [hd, List.find?_cons, hb, hx]

theorem lookupUser_setUser_self (d : UserStore) (uid : Nat) (v : UserAccount) :
    lookupUser (setUser d uid v) uid = some v := by
  unfold setUser
  cases hv : lookupUser d uid with
  | some w => simp [hv, lookupUser_updateUser_self]
  | none => simp [hv, lookupUser_append_single d uid uid v hv]

theorem lookupUser_setUser_ne (d : UserStore) (uid x : Nat) (v : UserAccount)
    (hx : x ≠ uid) :
    lookupUser (setUser d uid v) x = lookupUser d x := by
  unfold setUser
  cases hv : lookupUser d uid with
  | some w => simp [hv, lookupUser_updateUser_ne d uid x _ hx]
  | none => simp [hv, lookupUser_append_single d uid x v hv, hx]

/-! ## Spin-engine lemmas -/

theorem required_hits_cases (nm : String) (N : Nat)
    (h : required_hits nm = some N) :
    (nm = "Bronze" ∧ N = 1) ∨ (nm = "Silver" ∧ N = 3) ∨
    (nm = "Gold" ∧ N = 10) ∨ (nm = "Black" ∧ N = 25) := by
  unfold required_hits at h
  split_ifs at h with h1 h2 h3 h4 <;> simp_all

theorem ne_none_of_required_hits (nm : String) (N : Nat)
    (h : required_hits nm = some N) : nm ≠ "None" := by
  rcases required_hits_cases nm N h with ⟨h1, _⟩ | ⟨h1, _⟩ | ⟨h1, _⟩ | ⟨h1, _⟩ <;>
    (subst h1; decide)

theorem nftPool_of_required (nm : String) (N : Nat)
    (h : required_hits nm = some N) :
    ∃ pool, NFT_DROPS nm = some pool ∧ 0 < pool.length := by
  rcases required_hits_cases nm N h with ⟨h1, _⟩ | ⟨h1, _⟩ | ⟨h1, _⟩ | ⟨h1, _⟩ <;>
    (subst h1; exact ⟨_, rfl, by decide⟩)

theorem spin_win_step_not_final (user : UserAccount) (nm : String) (N : Nat)
    (hreq : required_hits nm = some N) (hpkg : user.package = nm)
    (hhits : user.hits + 1 < N) (hspins : 2 ≤ user.spinsAvailable) (idx : Nat) :
    handle_slot_machine idx 64 user =
      some { user with
        spinPoints := user.spinPoints + HIT_POINTS,
        level := calculate_level (user.spinPoints + HIT_POINTS),
        hits := user.hits + 1,
        spinsAvailable := user.spinsAvailable - 1,
        totalSpins := user.totalSpins + 1,
        allTimeSpins := user.allTimeSpins + 1,
        allTimeHits := user.allTimeHits + 1 } := by
  have hne : user.spinsAvailable ≠ 0 := by omega
  have hnm : nm ≠ "None" := ne_none_of_required_hits nm N hreq
  have hnotyet : ¬ (N ≤ user.hits + 1) := by omega
  have hs1 : ¬ (user.spinsAvailable - 1 = 0) := by omega
  simp only [handle_slot_machine, calculate_spin_result, hne, if_false,
    if_neg hne]
  simp only [hpkg]
  simp only [ne_eq, hnm, not_false_eq_true, if_true, hreq]
  simp [hnotyet, hs1]

theorem spin_win_step_final (user : UserAccount) (nm : String) (N : Nat)
    (hreq : required_hits nm = some N) (hpkg : user.package = nm)
    (hhits : user.hits + 1 = N) (hspins : user.spinsAvailable ≠ 0) (idx : Nat) :
    ∃ nft,
      handle_slot_machine idx 64 user =
        some { user with
          spinPoints := user.spinPoints + HIT_POINTS,
          level := calculate_level (user.spinPoints + HIT_POINTS),
          hits := 0,
          spinsAvailable := 0,
          totalSpins := 0,
          package := "None",
          paymentMethod := none,
          allTimeSpins := user.allTimeSpins + 1,
          allTimeHits := user.allTimeHits + 1,
          nfts := user.nfts ++ [nft] } := by
  obtain ⟨pool, hpool, hlen⟩ := nftPool_of_required nm N hreq
  have hget : pool.get? (idx % pool.length) =
      some (pool.get ⟨idx % pool.length, Nat.mod_lt idx hlen⟩) := by
    rw [List.get?_eq_get (Nat.mod_lt idx hlen)]
  refine ⟨pool.get ⟨idx % pool.length, Nat.mod_lt idx hlen⟩, ?_⟩
  have hnm : nm ≠ "None" := ne_none_of_required_hits nm N hreq
  have hdone : N ≤ user.hits + 1 := by omega
  simp only [handle_slot_machine, calculate_spin_result, if_neg hspins]
  simp only [hpkg, ne_eq, hnm, not_false_eq_true, if_true, hreq]
  rw [List.get?_eq_getElem?] at hget
  simp [hdone, hpool, hget]

theorem iterateWins_progress (nm : String) (N : Nat)
    (hreq : required_hits nm = some N) (idx : Nat) :
    ∀ (j : Nat) (u : UserAccount), u.package = nm → u.hits + j < N →
      N ≤ u.hits + u.spinsAvailable →
      ∃ u', iterateWins idx j u = some u' ∧ u'.package = nm ∧
        u'.hits = u.hits + j ∧ u'.spinsAvailable = u.spinsAvailable - j ∧
        u'.nfts = u.nfts := by
  intro j
  induction j with
  | zero =>
    intro u h1 h2 h3
    exact ⟨u, rfl, h1, by omega, by omega, rfl⟩
  | succ k ih =>
    intro u h1 h2 h3
    have hsp2 : 2 ≤ u.spinsAvailable := by omega
    have hstep := spin_win_step_not_final u nm N hreq h1 (by omega) hsp2 idx
    obtain ⟨u', hiter, hp, hh, hs, hn⟩ := ih
      { u with
        spinPoints := u.spinPoints + HIT_POINTS,
        level := calculate_level (u.spinPoints + HIT_POINTS),
        hits := u.hits + 1,
        spinsAvailable := u.spinsAvailable - 1,
        totalSpins := u.totalSpins + 1,
        allTimeSpins := u.allTimeSpins + 1,
        allTimeHits := u.allTimeHits + 1 }
      (by simp [h1]) (by simp; omega) (by simp; omega)
    refine ⟨u', ?_, hp, ?_, ?_, ?_⟩
    · simp only [iterateWins, hstep, Option.some_bind]
      exact hiter
    · simp at hh; omega
    · simp at hs; omega
    · simpa using hn

theorem iterateWins_add (idx a b : Nat) (u : UserAccount) :
    iterateWins idx (a + b) u =
      (iterateWins idx a u).bind (iterateWins idx b) := by
  induction a generalizing u with
  | zero => simp [iterateWins]
  | succ k ih =>
    have : k + 1 + b = (k + b) + 1 := by omega
    rw [this]
    simp only [iterateWins]
    cases handle_slot_machine idx 64 u with
    | none => simp
    | some v => simp [ih v]

/-- C3: with an active package, each winning spin increments `hits` by
exactly 1 for every tier, so for a package requiring `N` hits, the first
`N - 1` winning spins leave the package active with `hits = k` after the
`k`-th win (in particular `hits = N - 1` after the `(N-1)`-th), and the
`N`-th winning spin produces the NFT-earned reset — package cleared to
`"None"`, counters zeroed, one NFT appended — and not before. -/
theorem hit_threshold_requires_N_wins (user : UserAccount) (nm : String)
    (N : Nat) (idx : Nat) (hreq : required_hits nm = some N)
    (hpkg : user.package = nm) (hhits0 : user.hits = 0)
    (hS : N ≤ user.spinsAvailable) :
    (∀ k, k < N →
      (iterateWins idx k user).map
        (fun u => (u.package, u.hits, u.spinsAvailable, u.nfts)) =
        some (nm, k, user.spinsAvailable - k, user.nfts))
    ∧ (iterateWins idx N user).map
        (fun u =>
          (u.package, u.hits, u.spinsAvailable, u.totalSpins, u.nfts.length)) =
        some ("None", 0, 0, 0, user.nfts.length + 1) := by
  have hN1 : N - 1 + 1 = N := by
    rcases required_hits_cases nm N hreq with ⟨_, h⟩ | ⟨_, h⟩ | ⟨_, h⟩ | ⟨_, h⟩ <;>
      omega
  constructor
  · intro k hk
    obtain ⟨u', hit, hp, hh, hs, hn⟩ :=
      iterateWins_progress nm N hreq idx k user hpkg (by omega) (by omega)
    rw [hit]
    simp [hp, hh, hs, hn, hhits0]
  · obtain ⟨u', hit, hp, hh, hs, hn⟩ :=
      iterateWins_progress nm N hreq idx (N - 1) user hpkg (by omega) (by omega)
    obtain ⟨nft, hstep⟩ :=
      spin_win_step_final u' nm N hreq hp (by omega) (by omega) idx
    rw [← hN1, iterateWins_add idx (N - 1) 1 user, hit]
    simp only [Option.some_bind, iterateWins, hstep]
    simp [hn]

/-- C3 witness: a Silver package (3 hits required, 3 spins granted here)
still active with 2 hits after 2 wins, and reset with one NFT after the
3rd win. -/
theorem hit_threshold_requires_N_wins_witness :
    ((iterateWins 0 2
        ({ package := "Silver", spinsAvailable := 3 } : UserAccount)).map
        (fun u => (u.package, u.hits, u.spinsAvailable, u.nfts)) =
      some ("Silver", 2, 1, []))
    ∧ ((iterateWins 0 3
        ({ package := "Silver", spinsAvailable := 3 } : UserAccount)).map
        (fun u =>
          (u.package, u.hits, u.spinsAvailable, u.totalSpins, u.nfts.length)) =
      some ("None", 0, 0, 0, 1)) := by
  have h := hit_threshold_requires_N_wins
    { package := "Silver", spinsAvailable := 3 } "Silver" 3 0 (by decide)
    (by decide) (by decide) (by decide)
  exact ⟨h.1 2 (by decide), h.2⟩

/-- C5: a winning spin that simultaneously reaches the hit threshold and
consumes the last available spin produces the NFT-earned transition — NFT
appended, package cleared, `spins_available`/`total_spins`/`hits` zeroed —
rather than the plain spins-exhausted reset (which would not append an
NFT). -/
theorem nft_priority_over_exhaustion (user : UserAccount) (nm : String)
    (N : Nat) (idx : Nat) (hreq : required_hits nm = some N)
    (hpkg : user.package = nm) (hhits : user.hits + 1 = N)
    (hspins : user.spinsAvailable = 1) :
    (handle_slot_machine idx 64 user).map
      (fun u => (u.package, u.spinsAvailable, u.totalSpins, u.hits,
                 u.paymentMethod, u.nfts.dropLast, u.nfts.length)) =
      some ("None", 0, 0, 0, none, user.nfts, user.nfts.length + 1) := by
  obtain ⟨nft, hstep⟩ :=
    spin_win_step_final user nm N hreq hpkg hhits (by omega) idx
  rw [hstep]
  simp

/-- C5 witness: last spin on a Bronze package with the threshold reached by
this win yields the NFT reset, not the bare exhaustion reset. -/
theorem nft_priority_over_exhaustion_witness :
    (handle_slot_machine 0 64
      ({ package := "Bronze", spinsAvailable := 1 } : UserAccount)).map
      (fun u => (u.package, u.spinsAvailable, u.totalSpins, u.hits,
                 u.paymentMethod, u.nfts.dropLast, u.nfts.length)) =
      some ("None", 0, 0, 0, none, [], 1) :=
  nft_priority_over_exhaustion { package := "Bronze", spinsAvailable := 1 }
    "Bronze" 1 0 (by decide) (by decide) (by decide) (by decide)

/-- C7: the pending-payment sweep keeps an intent whose age is within the
3600-second TTL (for a user with no active package and no Stars payment),
removes it once its age exceeds the TTL — so an intent created at `T` is
present at `T + TTL - 1` and absent at `T + TTL + 1` — and removes,
independent of age, any intent whose user has paid via the Stars rail. -/
theorem cleanup_sweep_ttl_and_supersede
    (p : List (Nat × PendingPayment)) (d : UserStore) (uid : Nat)
    (info : PendingPayment) (hmem : (uid, info) ∈ p) :
    (∀ now : Int, now - info.timestamp ≤ (TON_PAYMENT_EXPIRY : Int) →
      (∀ u, lookupUser d uid = some u →
        u.package = "None" ∧ u.paymentMethod ≠ some "stars") →
      (uid, info) ∈ cleanup_old_payments now p d)
    ∧
    (∀ now : Int, (TON_PAYMENT_EXPIRY : Int) < now - info.timestamp →
      (uid, info) ∉ cleanup_old_payments now p d)
    ∧
    (∀ now : Int, ∀ u, lookupUser d uid = some u →
      u.paymentMethod = some "stars" →
      (uid, info) ∉ cleanup_old_payments now p d) := by
  refine ⟨?_, ?_, ?_⟩
  · intro now hage hu
    rw [cleanup_old_payments, List.mem_filter]
    refine ⟨hmem, ?_⟩
    simp only
    have he : decide ((TON_PAYMENT_EXPIRY : Int) < now - info.timestamp)
        = false := by
      simp [not_lt.mpr hage]
    rw [he]
    cases hl : lookupUser d uid with
    | none => simp
    | some u =>
      obtain ⟨hp, hm⟩ := hu u hl
      simp [hp, hm]
  · intro now hage hin
    rw [cleanup_old_payments, List.mem_filter] at hin
    have := hin.2
    simp only at this
    rw [decide_eq_true hage] at this
    simp at this
  · intro now u hl hm hin
    rw [cleanup_old_payments, List.mem_filter] at hin
    have := hin.2
    simp only [hl, hm] at this
    simp at this

/-- C7 witness: the intent created at time 0 survives a sweep at 3599,
is swept at 3601, and is swept at any time once its user holds a
Stars-activated package. -/
theorem cleanup_sweep_ttl_and_supersede_witness :
    ((7, exIntent) ∈ cleanup_old_payments 3599 [(7, exIntent)] [(7, exBuyer)])
    ∧ ((7, exIntent) ∉ cleanup_old_payments 3601 [(7, exIntent)] [(7, exBuyer)])
    ∧ ((7, exIntent) ∉ cleanup_old_payments 10 [(7, exIntent)]
        [(7, { exBuyer with package := "Bronze", paymentMethod := some "stars" })]) := by
  have h1 := cleanup_sweep_ttl_and_supersede [(7, exIntent)] [(7, exBuyer)] 7
    exIntent (by decide)
  have h2 := cleanup_sweep_ttl_and_supersede [(7, exIntent)]
    [(7, { exBuyer with package := "Bronze", paymentMethod := some "stars" })]
    7 exIntent (by decide)
  refine ⟨h1.1 3599 (by decide) ?_, h1.2.1 3601 (by decide),
    h2.2.2 10
      { exBuyer with package := "Bronze", paymentMethod := some "stars" }
      (by decide) (by decide)⟩
  intro u hu
  have hl : lookupUser [(7, exBuyer)] 7 = some exBuyer := by decide
  rw [hl] at hu
  cases Option.some.inj hu
  exact ⟨by decide, by decide⟩

/-! ## Level-invariant lemmas -/

theorem level_pres_updateUser (d : UserStore) (uid x : Nat)
    (f : UserAccount → UserAccount) (hf : ∀ u, (f u).level = u.level) :
    (lookupUser (updateUser d uid f) x).map (·.level) =
      (lookupUser d x).map (·.level) := by
  by_cases hx : x = uid
  · subst hx
    rw [lookupUser_updateUser_self]
    cases lookupUser d x with
    | none => rfl
    | some u => simp [hf u]
  · rw [lookupUser_updateUser_ne d uid x f hx]

theorem level_pres_two_stage (d : UserStore) (r b x : Nat)
    (f g : UserAccount → UserAccount)
    (hf : ∀ u, (f u).level = u.level) (hg : ∀ u, (g u).level = u.level) :
    (lookupUser
      ((fun d1 =>
        match lookupUser d1 b with
        | some _ => updateUser d1 b g
        | none => d1)
        (match lookupUser d r with
        | some _ => updateUser d r f
        | none => d)) x).map (·.level) =
      (lookupUser d x).map (·.level) := by
  cases h1 : lookupUser d r with
  | none =>
    simp only [h1]
    cases h2 : lookupUser d b with
    | none => simp only [h2]
    | some u =>
      simp only [h2]
      exact level_pres_updateUser d b x g hg
  | some u =>
    simp only [h1]
    have base := level_pres_updateUser d r x f hf
    cases h2 : lookupUser (updateUser d r f) b with
    | none =>
      simp only [h2]
      exact base
    | some w =>
      simp only [h2]
      rw [level_pres_updateUser (updateUser d r f) b x g hg]
      exact base

theorem referral_leaves_level (d : UserStore) (r b : Nat) (nm : String)
    (x : Nat) :
    (lookupUser (process_referral_bonus d r b nm) x).map (·.level) =
      (lookupUser d x).map (·.level) :=
  level_pres_two_stage d r b x _ _ (fun _ => rfl) (fun _ => rfl)

theorem add_spin_points_level_inv (d : UserStore) (uid : Nat) (pts : Nat)
    (v : UserAccount)
    (h : lookupUser (add_spin_points d uid pts).1 uid = some v) :
    v.level = calculate_level v.spinPoints := by
  unfold add_spin_points at h
  cases hl : lookupUser d uid with
  | none => simp only [hl] at h; exact absurd h (by simp)
  | some user =>
    simp only [hl, lookupUser_updateUser_self] at h
    simp at h
    cases h
    rfl

theorem spin_result_level (dice : Nat) (user : UserAccount) (r : SpinResult)
    (u0 : UserAccount) (h : calculate_spin_result dice user = some (r, u0)) :
    (u0.level = user.level ∧ u0.spinPoints = user.spinPoints) ∨
      u0.level = calculate_level u0.spinPoints := by
  unfold calculate_spin_result at h
  by_cases hd : dice ≠ 64
  · rw [if_pos hd] at h
    simp only [Option.some_inj, Prod.mk.injEq] at h
    left
    rw [← h.2]
    exact ⟨rfl, rfl⟩
  · rw [if_neg hd] at h
    by_cases hp : user.package ≠ "None"
    · simp only [if_pos hp] at h
      cases hr : required_hits user.package with
      | none => simp [hr] at h
      | some needed =>
        simp only [hr] at h
        by_cases hn : needed ≤ user.hits + 1
        · simp only [if_pos hn] at h
          simp only [Option.some_inj, Prod.mk.injEq] at h
          right
          rw [← h.2]
        · simp only [if_neg hn] at h
          simp only [Option.some_inj, Prod.mk.injEq] at h
          right
          rw [← h.2]
    · simp only [if_neg hp] at h
      simp only [Option.some_inj, Prod.mk.injEq] at h
      right
      rw [← h.2]

theorem handle_slot_machine_level_inv (idx dice : Nat) (user u' : UserAccount)
    (hinv : user.level = calculate_level user.spinPoints)
    (h : handle_slot_machine idx dice user = some u') :
    u'.level = calculate_level u'.spinPoints := by
  unfold handle_slot_machine at h
  by_cases hs : user.spinsAvailable = 0
  · rw [if_pos hs] at h
    cases h
    exact hinv
  · rw [if_neg hs] at h
    cases hres : calculate_spin_result dice user with
    | none => rw [hres] at h; exact absurd h (by simp)
    | some p =>
      obtain ⟨r, u0⟩ := p
      rw [hres] at h
      have hu0 := spin_result_level dice user r u0 hres
      by_cases hn : r.nftEarned = true
      · simp only [hn, if_true] at h
        cases hpool : NFT_DROPS u0.package with
        | none =>
          simp only [hpool] at h
          cases h
          rfl
        | some pool =>
          simp only [hpool] at h
          cases hget : pool.get? (idx % pool.length) with
          | none =>
            rw [hget] at h
            exact absurd h (by simp)
          | some nft =>
            rw [hget] at h
            cases h
            rfl
      · simp only [hn, Bool.false_eq_true, if_false] at h
        by_cases hz : 0 < r.hits <;> simp only [hz, if_true, if_false] at h
        · by_cases he : u0.spinsAvailable - 1 = 0 <;>
            simp only [he, if_true, if_false] at h <;> cases h
          · rfl
          · rcases hu0 with ⟨h1, h2⟩ | h1
            · simpa [h1, h2] using hinv
            · exact h1
        · by_cases he : u0.spinsAvailable - 1 = 0 <;>
            simp only [he, if_true, if_false] at h <;> cases h
          · rfl
          · rcases hu0 with ⟨h1, h2⟩ | h1
            · simpa [h1, h2] using hinv
            · exact h1

/-- C9 counterexample: a referrer whose stored level matches their points
(15 points, "Spinner") receives the Silver referral reward; their points
become 25 but the stored level stays "Spinner" while
`calculate_level 25 = "Collector"`, so the claimed invariant fails after a
referral reward. -/
theorem referral_breaks_level_invariant_cex :
    ((lookupUser [(1, ({ spinPoints := 15 } : UserAccount)),
        (2, ({} : UserAccount))] 1).map
      (fun u => u.level == calculate_level u.spinPoints) = some true)
    ∧ ((lookupUser (process_referral_bonus
        [(1, ({ spinPoints := 15 } : UserAccount)), (2, ({} : UserAccount))]
        1 2 "Silver") 1).map
      (fun u => (u.spinPoints, u.level, calculate_level u.spinPoints)) =
      some (25, "Spinner", "Collector"))
    ∧ ((lookupUser (process_referral_bonus
        [(1, ({ spinPoints := 15 } : UserAccount)), (2, ({} : UserAccount))]
        1 2 "Silver") 1).map
      (fun u => u.level == calculate_level u.spinPoints) = some false) := by
  decide

/-- C9 amended: the stored `level` equals `calculate_level spin_points`
after every `add_spin_points` call (spin wins and the Stars purchase bonus
go through it) and is preserved by every spin event, but the
referral-bonus path changes `spin_points` without ever touching `level`,
so the invariant does not survive referral rewards. -/
theorem level_tracks_points_except_referral :
    (∀ (d : UserStore) (uid pts : Nat) (v : UserAccount),
      lookupUser (add_spin_points d uid pts).1 uid = some v →
      v.level = calculate_level v.spinPoints)
    ∧ (∀ (idx dice : Nat) (user u' : UserAccount),
        user.level = calculate_level user.spinPoints →
        handle_slot_machine idx dice user = some u' →
        u'.level = calculate_level u'.spinPoints)
    ∧ (∀ (d : UserStore) (r b : Nat) (nm : String) (x : Nat),
        (lookupUser (process_referral_bonus d r b nm) x).map (·.level) =
          (lookupUser d x).map (·.level)) :=
  ⟨add_spin_points_level_inv, handle_slot_machine_level_inv,
    referral_leaves_level⟩

/-- C9 amended witness: the invariant holds after a concrete
`add_spin_points` call and after a concrete losing spin, and a concrete
referral bonus leaves the stored level untouched. -/
theorem level_tracks_points_except_referral_witness :
    (({ spinPoints := 25, level := "Collector" } : UserAccount).level =
      calculate_level
        ({ spinPoints := 25, level := "Collector" } : UserAccount).spinPoints)
    ∧ (({ spinsAvailable := 1, totalSpins := 1,
          allTimeSpins := 1 } : UserAccount).level = calculate_level 0)
    ∧ ((lookupUser (process_referral_bonus [(1, ({} : UserAccount))] 1 2
        "Gold") 1).map (·.level) =
      (lookupUser [(1, ({} : UserAccount))] 1).map (·.level)) := by
  refine ⟨?_, ?_, ?_⟩
  · exact level_tracks_points_except_referral.1 [(1, {})] 1 25
      { spinPoints := 25, level := "Collector" } (by decide)
  · exact level_tracks_points_except_referral.2.1 0 5
      { spinsAvailable := 2 }
      { spinsAvailable := 1, totalSpins := 1, allTimeSpins := 1 }
      (by decide) (by decide)
  · exact level_tracks_points_except_referral.2.2 [(1, {})] 1 2 "Gold" 1

/-- C10: applying a confirmed TON package purchase for a buyer whose
`referred_by` pointer names another stored user adds exactly 2 points to
the buyer (welcome bonus) and the package-specific reward to the referrer,
with the reward table Bronze 5, Silver 10, Gold 25, Black 50. -/
theorem referral_rewards_on_confirmed_purchase (s : RState) (txHash : String)
    (uid r : Nat) (info : PendingPayment) (pkg : Package)
    (buyer R : UserAccount)
    (hpkg : PACKAGES info.package = some pkg)
    (hbuyer : lookupUser s.userData uid = some buyer)
    (href : buyer.referredBy = some r) (hne : r ≠ uid)
    (hR : lookupUser s.userData r = some R) :
    ((lookupUser (applyConfirmedMatch false s txHash uid info).userData uid).map
        (·.spinPoints) = some (buyer.spinPoints + 2))
    ∧ ((lookupUser (applyConfirmedMatch false s txHash uid info).userData r).map
        (·.spinPoints) = some (R.spinPoints + calculate_referral_reward pkg.name))
    ∧ calculate_referral_reward "Bronze" = 5
    ∧ calculate_referral_reward "Silver" = 10
    ∧ calculate_referral_reward "Gold" = 25
    ∧ calculate_referral_reward "Black" = 50 := by
  have hbs : (lookupUser s.userData uid).isSome := by rw [hbuyer]; rfl
  have hd2uid : lookupUser (updateUser s.userData uid (tonActivation pkg)) uid =
      some (tonActivation pkg buyer) := by
    rw [lookupUser_updateUser_self, hbuyer]; rfl
  have hd2r : lookupUser (updateUser s.userData uid (tonActivation pkg)) r =
      some R := by
    rw [lookupUser_updateUser_ne _ _ _ _ hne, hR]
  have hrefl : (tonActivation pkg buyer).referredBy = some r := href
  simp only [applyConfirmedMatch, hpkg, hbs, if_true]
  simp only [hd2uid, Option.some_bind, hrefl]
  simp only [Bool.false_eq_true, if_false]
  have huid_ne_r : uid ≠ r := fun hh => hne hh.symm
  set d2 := updateUser s.userData uid (tonActivation pkg) with hd2
  have hlu : lookupUser (updateUser d2 r (fun u =>
      { u with spinPoints := u.spinPoints + calculate_referral_reward pkg.name,
               referrals := u.referrals + 1 })) uid =
      some (tonActivation pkg buyer) := by
    rw [lookupUser_updateUser_ne _ _ _ _ huid_ne_r, hd2uid]
  simp only [process_referral_bonus, hd2r, hlu]
  refine ⟨?_, ?_, rfl, rfl, rfl, rfl⟩
  · rw [lookupUser_updateUser_self, hlu]
    rfl
  · rw [lookupUser_updateUser_ne _ _ _ _ hne,
      lookupUser_updateUser_self, hd2r]
    rfl

/-- C10 witness: a bronze purchase by user 2, referred by user 1, leaves
the buyer with 2 points and the referrer with 5. -/
theorem referral_rewards_on_confirmed_purchase_witness :
    ((lookupUser (applyConfirmedMatch false
        { userData := [(1, ({} : UserAccount)),
                       (2, ({ referredBy := some 1 } : UserAccount))],
          pending := [(2, exIntent)], processed := [], recentCache := [] }
        "H1" 2 exIntent).userData 2).map (·.spinPoints) = some 2)
    ∧ ((lookupUser (applyConfirmedMatch false
        { userData := [(1, ({} : UserAccount)),
                       (2, ({ referredBy := some 1 } : UserAccount))],
          pending := [(2, exIntent)], processed := [], recentCache := [] }
        "H1" 2 exIntent).userData 1).map (·.spinPoints) =
      some (0 + calculate_referral_reward "Bronze")) := by
  have h := referral_rewards_on_confirmed_purchase
    { userData := [(1, ({} : UserAccount)),
                   (2, ({ referredBy := some 1 } : UserAccount))],
      pending := [(2, exIntent)], processed := [], recentCache := [] }
    "H1" 2 1 exIntent ⟨"Bronze", 450, 2000000000, 30, 1⟩
    { referredBy := some 1 } {} (by decide) (by decide) (by decide)
    (by decide) (by decide)
  exact ⟨h.1, h.2.1⟩

/-! ## Reconciler lemmas -/

theorem processTx_single_intent_exact (conf : String → Option Confirmation)
    (dbFail : Bool) (s : RState) (tx : RawTx) (uid : Nat)
    (info : PendingPayment)
    (hpend : s.pending = [(uid, info)])
    (hhash : (tx.hash == "") = false)
    (hproc : s.processed.contains tx.hash = false)
    (hcache : s.recentCache.contains tx.hash = false)
    (hamt : (txDetails tx).1 = info.expectedAmount)
    (htext : ((txDetails tx).2.1 == "") = false)
    (hid : matchesPaymentId info.paymentId (txDetails tx).2.1 = true)
    (hconf : conf tx.hash = some { isConfirmed := true, errored := false }) :
    processTx conf dbFail s tx =
      applyConfirmedMatch dbFail
        { s with recentCache := tx.hash :: s.recentCache }
        tx.hash uid info := by
  unfold processTx
  rw [hpend]
  simp only [List.isEmpty_cons, Bool.false_eq_true, if_false]
  rw [hhash]
  simp only [Bool.false_eq_true, if_false]
  rw [hproc, hcache]
  simp only [Bool.or_self, Bool.false_eq_true, if_false]
  rw [hamt, htext]
  simp only [hpend, pendingAmounts, List.map_cons, List.map_nil]
  simp only [List.contains_cons, beq_self_eq_true, Bool.true_or,
    Bool.not_true, Bool.false_or, Bool.false_eq_true, if_false]
  simp only [relevantIdFound, pendingIds, List.map_cons, List.map_nil,
    List.any_cons, List.any_nil, hid, Bool.true_or, Bool.or_false,
    Bool.not_true, Bool.false_eq_true, if_false]
  rw [hconf]
  simp only [Bool.not_true, Bool.or_false, Bool.false_eq_true, if_false]
  simp only [matchPending, hid, if_true]
  simp [Int.sub_self]


theorem applyConfirmedMatch_fail (s : RState) (h : String) (uid : Nat)
    (info : PendingPayment) :
    applyConfirmedMatch true s h uid info = s := rfl

theorem applyConfirmedMatch_cache (dbFail : Bool) (s : RState) (h : String)
    (uid : Nat) (info : PendingPayment) :
    (applyConfirmedMatch dbFail s h uid info).recentCache = s.recentCache := by
  cases dbFail with
  | true => rfl
  | false =>
    unfold applyConfirmedMatch
    cases hp : PACKAGES info.package <;> simp [hp]

theorem matchPending_cache (dbFail : Bool) (s : RState) (h : String)
    (amount : Nat) (text : String) (l : List (Nat × PendingPayment)) :
    (matchPending dbFail s h amount text l).recentCache = s.recentCache := by
  induction l with
  | nil => rfl
  | cons e rest ih =>
    obtain ⟨uid, info⟩ := e
    unfold matchPending
    by_cases h1 : matchesPaymentId info.paymentId text = true
    · simp only [h1, if_true]
      by_cases h2 : ((info.expectedAmount : Int) - (amount : Int)).natAbs ≤ 1
      · simp only [h2, if_true]
        exact applyConfirmedMatch_cache dbFail s h uid info
      · simp only [h2, if_false]
        exact ih
    · simp only [h1, Bool.false_eq_true, if_false]
      exact ih

theorem applyConfirmedMatch_user_or_processed (dbFail : Bool) (s : RState)
    (h : String) (uid : Nat) (info : PendingPayment) :
    (applyConfirmedMatch dbFail s h uid info).userData = s.userData ∨
      (applyConfirmedMatch dbFail s h uid info).processed.contains h = true := by
  cases dbFail with
  | true => left; rfl
  | false =>
    unfold applyConfirmedMatch
    cases hp : PACKAGES info.package with
    | none => left; simp [hp]
    | some pkg =>
      right
      simp [hp, List.contains_cons]

theorem matchPending_user_or_processed (dbFail : Bool) (s : RState)
    (h : String) (amount : Nat) (text : String)
    (l : List (Nat × PendingPayment)) :
    (matchPending dbFail s h amount text l).userData = s.userData ∨
      (matchPending dbFail s h amount text l).processed.contains h = true := by
  induction l with
  | nil => left; rfl
  | cons e rest ih =>
    obtain ⟨uid, info⟩ := e
    unfold matchPending
    by_cases h1 : matchesPaymentId info.paymentId text = true
    · simp only [h1, if_true]
      by_cases h2 : ((info.expectedAmount : Int) - (amount : Int)).natAbs ≤ 1
      · simp only [h2, if_true]
        exact applyConfirmedMatch_user_or_processed dbFail s h uid info
      · simp only [h2, if_false]
        exact ih
    · simp only [h1, Bool.false_eq_true, if_false]
      exact ih


theorem processTx_skip_seen (conf : String → Option Confirmation)
    (dbFail : Bool) (s : RState) (tx : RawTx)
    (h : (s.processed.contains tx.hash || s.recentCache.contains tx.hash) =
      true) :
    processTx conf dbFail s tx = s := by
  unfold processTx
  by_cases h1 : s.pending.isEmpty = true
  · rw [if_pos h1]
  · rw [if_neg h1]
    by_cases h2 : (tx.hash == "") = true
    · rw [if_pos h2]
    · rw [if_neg h2, if_pos h]

theorem processTx_outcome (conf : String → Option Confirmation)
    (dbFail : Bool) (s : RState) (tx : RawTx) :
    processTx conf dbFail s tx = s ∨
    ((processTx conf dbFail s tx).recentCache = tx.hash :: s.recentCache ∧
      (processTx conf dbFail s tx).userData = s.userData ∨
      (processTx conf dbFail s tx).recentCache = tx.hash :: s.recentCache ∧
      (processTx conf dbFail s tx).processed.contains tx.hash = true) := by
  unfold processTx
  by_cases h1 : s.pending.isEmpty = true
  · left; rw [if_pos h1]
  · rw [if_neg h1]
    by_cases h2 : (tx.hash == "") = true
    · left; rw [if_pos h2]
    · rw [if_neg h2]
      by_cases h3 : (s.processed.contains tx.hash ||
        s.recentCache.contains tx.hash) = true
      · left; rw [if_pos h3]
      · rw [if_neg h3]
        right
        by_cases h4 : (((txDetails tx).2.1 == "") ||
            !((pendingAmounts s.pending).contains (txDetails tx).1)) = true
        · left; rw [if_pos h4]; exact ⟨rfl, rfl⟩
        · rw [if_neg h4]
          by_cases h5 : (!(relevantIdFound s.pending (txDetails tx).2.1)) = true
          · left; rw [if_pos h5]; exact ⟨rfl, rfl⟩
          · rw [if_neg h5]
            cases hc : conf tx.hash with
            | none => left; dsimp only; exact ⟨rfl, rfl⟩
            | some c =>
              dsimp only
              by_cases h6 : (c.errored || !c.isConfirmed) = true
              · left; rw [if_pos h6]; exact ⟨rfl, rfl⟩
              · rw [if_neg h6]
                rcases matchPending_user_or_processed dbFail
                  { s with recentCache := tx.hash :: s.recentCache }
                  tx.hash (txDetails tx).1 (txDetails tx).2.1 s.pending with
                  hu | hp
                · left
                  exact ⟨matchPending_cache dbFail _ _ _ _ _, hu⟩
                · right
                  exact ⟨matchPending_cache dbFail _ _ _ _ _, hp⟩


/-- C2: processing the same transaction hash a second time (duplicate
delivery or re-poll) leaves the state exactly as after the first
processing — in particular the same `UserAccount` states — and whenever the
first processing mutated any account the hash is present in the
`ProcessedTransaction` ledger, which is what the pre-filter checks before
any state mutation. -/
theorem processTx_duplicate_idempotent (conf : String → Option Confirmation)
    (dbFail : Bool) (s : RState) (tx : RawTx) :
    processTx conf dbFail (processTx conf dbFail s tx) tx =
      processTx conf dbFail s tx ∧
    ((processTx conf dbFail s tx).userData = s.userData ∨
      (processTx conf dbFail s tx).processed.contains tx.hash = true) := by
  rcases processTx_outcome conf dbFail s tx with heq | ⟨hcache, hud⟩ | ⟨hcache, hp⟩
  · constructor
    · rw [heq, heq]
    · left; rw [heq]
  · refine ⟨?_, Or.inl hud⟩
    apply processTx_skip_seen
    rw [hcache]
    simp [List.contains_cons]
  · refine ⟨?_, Or.inr hp⟩
    apply processTx_skip_seen
    rw [hcache]
    simp [List.contains_cons]


theorem processTx_single_intent_wrong_amount
    (conf : String → Option Confirmation) (dbFail : Bool) (s : RState)
    (tx : RawTx) (uid : Nat) (info : PendingPayment)
    (hpend : s.pending = [(uid, info)])
    (hhash : (tx.hash == "") = false)
    (hproc : s.processed.contains tx.hash = false)
    (hcache : s.recentCache.contains tx.hash = false)
    (hamt : (txDetails tx).1 ≠ info.expectedAmount) :
    processTx conf dbFail s tx =
      { s with recentCache := tx.hash :: s.recentCache } := by
  unfold processTx
  rw [hpend]
  simp only [List.isEmpty_cons, Bool.false_eq_true, if_false]
  rw [hhash]
  simp only [Bool.false_eq_true, if_false]
  rw [hproc, hcache]
  simp only [Bool.or_self, Bool.false_eq_true, if_false]
  have hcon : ((pendingAmounts [(uid, info)]).contains (txDetails tx).1)
      = false := by
    simp [pendingAmounts, List.contains_cons, hamt]
  rw [hcon]
  simp only [Bool.not_false, Bool.or_true, if_true]

theorem processTx_single_intent_not_confirmed
    (conf : String → Option Confirmation) (dbFail : Bool) (s : RState)
    (tx : RawTx) (uid : Nat) (info : PendingPayment) (c : Confirmation)
    (hpend : s.pending = [(uid, info)])
    (hhash : (tx.hash == "") = false)
    (hproc : s.processed.contains tx.hash = false)
    (hcache : s.recentCache.contains tx.hash = false)
    (hconf : conf tx.hash = some c)
    (hskip : (c.errored || !c.isConfirmed) = true) :
    processTx conf dbFail s tx =
      { s with recentCache := tx.hash :: s.recentCache } := by
  unfold processTx
  rw [hpend]
  simp only [List.isEmpty_cons, Bool.false_eq_true, if_false]
  rw [hhash]
  simp only [Bool.false_eq_true, if_false]
  rw [hproc, hcache]
  simp only [Bool.or_self, Bool.false_eq_true, if_false]
  by_cases h4 : (((txDetails tx).2.1 == "") ||
      !((pendingAmounts [(uid, info)]).contains (txDetails tx).1)) = true
  · rw [if_pos h4]
  · rw [if_neg h4]
    by_cases h5 : (!(relevantIdFound [(uid, info)] (txDetails tx).2.1)) = true
    · rw [if_pos h5]
    · rw [if_neg h5, hconf]
      dsimp only
      rw [if_pos hskip]

theorem applyConfirmedMatch_success_no_referral (s : RState) (h : String)
    (uid : Nat) (info : PendingPayment) (pkg : Package)
    (buyer : UserAccount)
    (hpkg : PACKAGES info.package = some pkg)
    (hbuyer : lookupUser s.userData uid = some buyer)
    (href : buyer.referredBy = none) :
    applyConfirmedMatch false s h uid info =
      { s with
        userData := updateUser s.userData uid (tonActivation pkg),
        pending := s.pending.filter (fun e => e.1 != uid),
        processed := h :: s.processed } := by
  have hbs : (lookupUser s.userData uid).isSome := by rw [hbuyer]; rfl
  have hd2uid : lookupUser (updateUser s.userData uid (tonActivation pkg)) uid =
      some (tonActivation pkg buyer) := by
    rw [lookupUser_updateUser_self, hbuyer]; rfl
  have hrefn : (tonActivation pkg buyer).referredBy = none := href
  simp only [applyConfirmedMatch, Bool.false_eq_true, if_false, hpkg, hbs,
    if_true]
  simp only [hd2uid, Option.some_bind, hrefn]


theorem PACKAGES_key_cases (key : String) (pkg : Package)
    (h : PACKAGES key = some pkg) :
    key = "bronze" ∨ key = "silver" ∨ key = "gold" ∨ key = "black" := by
  unfold PACKAGES at h
  split_ifs at h with h1 h2 h3 h4 <;> simp_all

/-- C1 amended: when applying a confirmed match fails (database-write
exception inside the try-block), `check_new_ton_payments` removes the
transaction hash from the processed ledger again (main.py line 705) and
leaves account, pending intent and ledger as before; only the short-lived
seen-cache remembers the hash, so after the periodic cache clear the same
hash goes through match-and-apply a second time. -/
theorem failed_apply_rolls_back_ledger (conf conf2 : String → Option Confirmation)
    (s : RState) (tx : RawTx) (uid : Nat) (info : PendingPayment)
    (pkg : Package) (buyer : UserAccount)
    (hpend : s.pending = [(uid, info)])
    (hhash : (tx.hash == "") = false)
    (hproc : s.processed.contains tx.hash = false)
    (hcache : s.recentCache.contains tx.hash = false)
    (hamt : (txDetails tx).1 = info.expectedAmount)
    (htext : ((txDetails tx).2.1 == "") = false)
    (hid : matchesPaymentId info.paymentId (txDetails tx).2.1 = true)
    (hconf : conf tx.hash = some { isConfirmed := true, errored := false })
    (hconf2 : conf2 tx.hash = some { isConfirmed := true, errored := false })
    (hpkg : PACKAGES info.package = some pkg)
    (hbuyer : lookupUser s.userData uid = some buyer)
    (href : buyer.referredBy = none) :
    processTx conf true s tx =
      { s with recentCache := tx.hash :: s.recentCache }
    ∧ processTx conf2 false (clearRecentCache (processTx conf true s tx)) tx =
      { s with userData := updateUser s.userData uid (tonActivation pkg),
               pending := [],
               processed := tx.hash :: s.processed,
               recentCache := [tx.hash] } := by
  have h1 : processTx conf true s tx =
      { s with recentCache := tx.hash :: s.recentCache } := by
    rw [processTx_single_intent_exact conf true s tx uid info hpend hhash hproc
      hcache hamt htext hid hconf]
    exact applyConfirmedMatch_fail _ _ _ _
  refine ⟨h1, ?_⟩
  rw [h1]
  have h2 : clearRecentCache
      { s with recentCache := tx.hash :: s.recentCache } =
      { s with recentCache := [] } := rfl
  rw [h2]
  rw [processTx_single_intent_exact conf2 false
    { s with recentCache := [] } tx uid info hpend hhash hproc (by simp)
    hamt htext hid hconf2]
  dsimp only
  rw [applyConfirmedMatch_success_no_referral
    { s with recentCache := [tx.hash] } tx.hash uid info pkg buyer hpkg hbuyer
    href]
  have hfil : List.filter (fun e => e.1 != uid) s.pending = [] := by
    rw [hpend]
    simp
  simp [hfil]


/-- C4 amended: with a single pending intent, a confirmed transaction whose
memo carries the payment id matches exactly when its amount equals
`expected_amount_nano`; any other amount — including one only 1 nano off,
inside the ±1 tolerance of the per-intent check — is discarded by the
pre-filter (`amount not in pending_amounts`, main.py line 535) before the
tolerance check can run, and nothing is credited. -/
theorem single_intent_matches_iff_exact_amount
    (conf : String → Option Confirmation) (s : RState) (tx : RawTx)
    (uid : Nat) (info : PendingPayment) (pkg : Package) (buyer : UserAccount)
    (hpend : s.pending = [(uid, info)])
    (hhash : (tx.hash == "") = false)
    (hproc : s.processed.contains tx.hash = false)
    (hcache : s.recentCache.contains tx.hash = false)
    (htext : ((txDetails tx).2.1 == "") = false)
    (hid : matchesPaymentId info.paymentId (txDetails tx).2.1 = true)
    (hconf : conf tx.hash = some { isConfirmed := true, errored := false })
    (hpkg : PACKAGES info.package = some pkg)
    (hbuyer : lookupUser s.userData uid = some buyer)
    (href : buyer.referredBy = none) :
    ((txDetails tx).1 = info.expectedAmount →
      processTx conf false s tx =
        { s with userData := updateUser s.userData uid (tonActivation pkg),
                 pending := [],
                 processed := tx.hash :: s.processed,
                 recentCache := tx.hash :: s.recentCache })
    ∧ ((txDetails tx).1 ≠ info.expectedAmount →
      processTx conf false s tx =
        { s with recentCache := tx.hash :: s.recentCache }) := by
  constructor
  · intro hamt
    rw [processTx_single_intent_exact conf false s tx uid info hpend hhash
      hproc hcache hamt htext hid hconf]
    rw [applyConfirmedMatch_success_no_referral
      { s with recentCache := tx.hash :: s.recentCache } tx.hash uid info pkg
      buyer hpkg hbuyer href]
    have hfil : List.filter (fun e => e.1 != uid) s.pending = [] := by
      rw [hpend]
      simp
    simp [hfil]
  · intro hamt
    exact processTx_single_intent_wrong_amount conf false s tx uid info hpend
      hhash hproc hcache hamt

/-- C6 amended: a candidate whose confirmation check reports unconfirmed or
an error is skipped with no state change, but its hash has entered the
`recent_transaction_cache` seen-set, so subsequent cycles skip it without
re-checking confirmation while the cache lives; only after the periodic
cache clear (every 300 s) is confirmation re-checked, and a then-confirmed
transaction is credited. It is never credited while unconfirmed. -/
theorem unconfirmed_skipped_then_suppressed_until_cache_clear
    (conf1 conf2 conf3 : String → Option Confirmation) (dbF1 dbF2 : Bool)
    (s : RState) (tx : RawTx) (uid : Nat) (info : PendingPayment)
    (pkg : Package) (buyer : UserAccount) (c : Confirmation)
    (hpend : s.pending = [(uid, info)])
    (hhash : (tx.hash == "") = false)
    (hproc : s.processed.contains tx.hash = false)
    (hcache : s.recentCache.contains tx.hash = false)
    (hamt : (txDetails tx).1 = info.expectedAmount)
    (htext : ((txDetails tx).2.1 == "") = false)
    (hid : matchesPaymentId info.paymentId (txDetails tx).2.1 = true)
    (hconf1 : conf1 tx.hash = some c)
    (hskip : (c.errored || !c.isConfirmed) = true)
    (hconf3 : conf3 tx.hash = some { isConfirmed := true, errored := false })
    (hpkg : PACKAGES info.package = some pkg)
    (hbuyer : lookupUser s.userData uid = some buyer)
    (href : buyer.referredBy = none) :
    processTx conf1 dbF1 s tx =
      { s with recentCache := tx.hash :: s.recentCache }
    ∧ processTx conf2 dbF2 (processTx conf1 dbF1 s tx) tx =
      processTx conf1 dbF1 s tx
    ∧ processTx conf3 false (clearRecentCache (processTx conf1 dbF1 s tx)) tx =
      { s with userData := updateUser s.userData uid (tonActivation pkg),
               pending := [],
               processed := tx.hash :: s.processed,
               recentCache := [tx.hash] } := by
  have h1 : processTx conf1 dbF1 s tx =
      { s with recentCache := tx.hash :: s.recentCache } :=
    processTx_single_intent_not_confirmed conf1 dbF1 s tx uid info c hpend
      hhash hproc hcache hconf1 hskip
  refine ⟨h1, ?_, ?_⟩
  · apply processTx_skip_seen
    rw [h1]
    simp [List.contains_cons]
  · rw [h1]
    have h2 : clearRecentCache
        { s with recentCache := tx.hash :: s.recentCache } =
        { s with recentCache := [] } := rfl
    rw [h2]
    rw [processTx_single_intent_exact conf3 false
      { s with recentCache := [] } tx uid info hpend hhash hproc (by simp)
      hamt htext hid hconf3]
    dsimp only
    rw [applyConfirmedMatch_success_no_referral
      { s with recentCache := [tx.hash] } tx.hash uid info pkg buyer hpkg
      hbuyer href]
    have hfil : List.filter (fun e => e.1 != uid) s.pending = [] := by
      rw [hpend]
      simp
    simp [hfil]


/-- C8 amended: for the same package, the TON confirmation path and the
Stars success path each record a processed-transaction entry (chain hash
vs. synthetic `stars_...` id) and produce accounts that agree on package
name, `spins_available`, `total_spins = 0` and `hits = 0`, differing in
`payment_method`; but the spin-point change differs — the Stars path adds
`PACKAGE_POINTS` (positive for every package) and recomputes the level,
while the TON path adds no purchase points. -/
theorem rails_agree_except_points (s : RState) (h : String) (uid : Nat)
    (info : PendingPayment) (pkg : Package) (buyer : UserAccount)
    (payload : String) (now : Nat)
    (hlen : ¬ (splitUnderscore payload).length < 3)
    (hsplit : (splitUnderscore payload).get? 1 = some info.package)
    (hpkg : PACKAGES info.package = some pkg)
    (hbuyer : lookupUser s.userData uid = some buyer)
    (href : buyer.referredBy = none) :
    ((applyConfirmedMatch false s h uid info).processed = h :: s.processed)
    ∧ (lookupUser (applyConfirmedMatch false s h uid info).userData uid =
        some (tonActivation pkg buyer))
    ∧ ((process_successful_payment s uid payload pkg.priceStars now).map
        (·.processed) =
      some (("stars_" ++ toString uid ++ "_" ++ info.package ++ "_" ++
        toString now) :: s.processed))
    ∧ ((process_successful_payment s uid payload pkg.priceStars now).map
        (fun s2 => lookupUser s2.userData uid) =
      some (some { tonActivation pkg buyer with
        paymentMethod := some "stars",
        spinPoints := buyer.spinPoints + PACKAGE_POINTS info.package,
        level := calculate_level
          (buyer.spinPoints + PACKAGE_POINTS info.package) }))
    ∧ 0 < PACKAGE_POINTS info.package := by
  have happly := applyConfirmedMatch_success_no_referral s h uid info pkg buyer
    hpkg hbuyer href
  have hd1uid : lookupUser (updateUser s.userData uid (tonActivation pkg)) uid =
      some (tonActivation pkg buyer) := by
    rw [lookupUser_updateUser_self, hbuyer]; rfl
  refine ⟨?_, ?_, ?_, ?_, ?_⟩
  · rw [happly]
  · rw [happly]
    exact hd1uid
  · unfold process_successful_payment
    rw [if_neg hlen, hsplit]
    dsimp only
    rw [hpkg]
    dsimp only
    rw [if_neg (by exact fun hh => hh rfl), hbuyer]
    rfl
  · unfold process_successful_payment
    rw [if_neg hlen, hsplit]
    dsimp only
    rw [hpkg]
    dsimp only
    rw [if_neg (by exact fun hh => hh rfl), hbuyer]
    dsimp only
    have hstars : lookupUser (updateUser s.userData uid (fun u =>
        { u with package := pkg.name, paymentMethod := some "stars",
                 spinsAvailable := pkg.spins, totalSpins := 0,
                 hits := 0 })) uid =
        some { buyer with
          package := pkg.name, paymentMethod := some "stars",
          spinsAvailable := pkg.spins, totalSpins := 0, hits := 0 } := by
      rw [lookupUser_updateUser_self, hbuyer]; rfl
    rw [hstars]
    simp only [Option.some_bind]
    rw [href]
    dsimp only
    unfold add_spin_points
    rw [hstars]
    dsimp only
    simp [lookupUser_updateUser_self, hstars, tonActivation]
  · rcases PACKAGES_key_cases info.package pkg hpkg with h1 | h1 | h1 | h1 <;>
      (rw [h1]; decide)

/-- C1 counterexample: a confirmed, amount- and memo-matched payment whose
apply step fails leaves the processed ledger WITHOUT the transaction hash
(the claim says the hash remains recorded); the same input applies cleanly
when nothing fails, and after the seen-cache is cleared the rolled-back
hash triggers match-and-apply a second time (the claim says it never
can). -/
theorem ledger_rolled_back_on_failure_cex :
    ((processTx confAlways true exState exTxExact).processed = [])
    ∧ ((processTx confAlways true exState exTxExact).userData =
        exState.userData)
    ∧ ((processTx confAlways true exState exTxExact).pending =
        exState.pending)
    ∧ ((processTx confAlways false exState exTxExact).processed = ["H1"])
    ∧ ((lookupUser (processTx confAlways false
        (clearRecentCache (processTx confAlways true exState exTxExact))
        exTxExact).userData 7).map (·.package) = some "Bronze") := by
  decide

/-- C1 amended witness: the concrete bronze scenario, failing apply then a
clean retry after the cache clear. -/
theorem failed_apply_rolls_back_ledger_witness :
    (processTx confAlways true exState exTxExact =
      { exState with recentCache := ["H1"] })
    ∧ (processTx confAlways false
        (clearRecentCache (processTx confAlways true exState exTxExact))
        exTxExact =
      { exState with
          userData := updateUser exState.userData 7 (tonActivation exPkg),
          pending := [],
          processed := ["H1"],
          recentCache := ["H1"] }) :=
  failed_apply_rolls_back_ledger confAlways confAlways exState exTxExact 7
    exIntent exPkg exBuyer (by decide) (by decide) (by decide) (by decide)
    (by decide) (by decide) (by decide) (by decide) (by decide) (by decide)
    (by decide) (by decide)

/-- C4 counterexample: with one pending bronze intent, a confirmed
transaction 1 nano short of the expected amount — within the ±1 tolerance
of main.py line 586 and with the payment id in its memo — does not match:
account, pending intent and ledger are all unchanged. -/
theorem tolerance_prefiltered_cex :
    ((((txDetails exTxOff1).1 : Int) - (exIntent.expectedAmount : Int)).natAbs
      ≤ 1)
    ∧ (matchesPaymentId exIntent.paymentId (txDetails exTxOff1).2.1 = true)
    ∧ ((processTx confAlways false exState exTxOff1).userData =
        exState.userData)
    ∧ ((processTx confAlways false exState exTxOff1).pending =
        exState.pending)
    ∧ ((processTx confAlways false exState exTxOff1).processed = []) := by
  decide

/-- C4 amended witness: the exact-amount transaction is credited, the
1-nano-short transaction is dropped by the pre-filter. -/
theorem single_intent_matches_iff_exact_amount_witness :
    (processTx confAlways false exState exTxExact =
      { exState with
          userData := updateUser exState.userData 7 (tonActivation exPkg),
          pending := [],
          processed := ["H1"],
          recentCache := ["H1"] })
    ∧ (processTx confAlways false exState exTxOff1 =
      { exState with recentCache := ["H2"] }) := by
  have h1 := single_intent_matches_iff_exact_amount confAlways exState
    exTxExact 7 exIntent exPkg exBuyer (by decide) (by decide) (by decide)
    (by decide) (by decide) (by decide) (by decide) (by decide) (by decide)
    (by decide)
  have h2 := single_intent_matches_iff_exact_amount confAlways exState
    exTxOff1 7 exIntent exPkg exBuyer (by decide) (by decide) (by decide)
    (by decide) (by decide) (by decide) (by decide) (by decide) (by decide)
    (by decide)
  exact ⟨h1.1 (by decide), h2.2 (by decide)⟩

/-- C6 counterexample: a transaction whose confirmation check says
unconfirmed is skipped in cycle 1, but in cycle 2 — when the oracle now
reports it confirmed — it is still not credited (pending intact, account
untouched), because the seen-cache suppresses it; only once the cache is
cleared does the next cycle credit it. The claim says it is re-examined on
the next cycle. -/
theorem unconfirmed_not_reexamined_next_cycle_cex :
    ((processTx confNever false exState exTxExact).userData =
      exState.userData)
    ∧ ((processTx confAlways false (processTx confNever false exState
        exTxExact) exTxExact).userData = exState.userData)
    ∧ ((processTx confAlways false (processTx confNever false exState
        exTxExact) exTxExact).pending = exState.pending)
    ∧ ((processTx confAlways false (processTx confNever false exState
        exTxExact) exTxExact).processed = [])
    ∧ ((lookupUser (processTx confAlways false (clearRecentCache
        (processTx confNever false exState exTxExact)) exTxExact).userData
        7).map (·.package) = some "Bronze") := by
  decide

/-- C6 amended witness: the concrete bronze scenario — skip with no state
change, suppression on the next cycle, credit after the cache clear. -/
theorem unconfirmed_skipped_then_suppressed_witness :
    (processTx confNever false exState exTxExact =
      { exState with recentCache := ["H1"] })
    ∧ (processTx confAlways false (processTx confNever false exState
        exTxExact) exTxExact =
      processTx confNever false exState exTxExact)
    ∧ (processTx confAlways false (clearRecentCache
        (processTx confNever false exState exTxExact)) exTxExact =
      { exState with
          userData := updateUser exState.userData 7 (tonActivation exPkg),
          pending := [],
          processed := ["H1"],
          recentCache := ["H1"] }) :=
  unconfirmed_skipped_then_suppressed_until_cache_clear confNever confAlways
    confAlways false false exState exTxExact 7 exIntent exPkg exBuyer
    { isConfirmed := false, errored := false } (by decide) (by decide)
    (by decide) (by decide) (by decide) (by decide) (by decide) (by decide)
    (by decide) (by decide) (by decide) (by decide) (by decide)

/-- C8 counterexample: from the same initial account, a bronze purchase via
the TON rail and via the Stars rail agree on package, spins and counters
and differ in `payment_method` — but the buyer's `spin_points` end at 0 on
the TON rail and at 5 on the Stars rail, so the two rails do not produce
the same spin-point change as claimed. -/
theorem rails_points_differ_cex :
    ((lookupUser (processTx confAlways false exState exTxExact).userData
        7).map (fun u => (u.package, u.spinsAvailable, u.totalSpins, u.hits,
          u.paymentMethod, u.spinPoints)) =
      some ("Bronze", 30, 0, 0, some "ton", 0))
    ∧ ((process_successful_payment exState 7 "pay_bronze_x" 450 99).map
        (fun s2 => (lookupUser s2.userData 7).map
          (fun u => (u.package, u.spinsAvailable, u.totalSpins, u.hits,
            u.paymentMethod, u.spinPoints))) =
      some (some ("Bronze", 30, 0, 0, some "stars", 5))) := by
  exact ⟨rfl, rfl⟩

/-- C8 amended witness: the concrete bronze comparison of the two rails. -/
theorem rails_agree_except_points_witness :
    ((applyConfirmedMatch false exState "H1" 7 exIntent).processed = ["H1"])
    ∧ (lookupUser (applyConfirmedMatch false exState "H1" 7
        exIntent).userData 7 = some (tonActivation exPkg exBuyer))
    ∧ ((process_successful_payment exState 7 "pay_bronze_x"
        exPkg.priceStars 99).map (·.processed) =
      some (("stars_" ++ toString 7 ++ "_" ++ exIntent.package ++ "_" ++
        toString 99) :: exState.processed))
    ∧ ((process_successful_payment exState 7 "pay_bronze_x"
        exPkg.priceStars 99).map (fun s2 => lookupUser s2.userData 7) =
      some (some { tonActivation exPkg exBuyer with
        paymentMethod := some "stars",
        spinPoints := exBuyer.spinPoints + PACKAGE_POINTS exIntent.package,
        level := calculate_level
          (exBuyer.spinPoints + PACKAGE_POINTS exIntent.package) }))
    ∧ 0 < PACKAGE_POINTS exIntent.package :=
  rails_agree_except_points exState "H1" 7 exIntent exPkg exBuyer
    "pay_bronze_x" 99 (by decide) (by decide) (by decide) (by decide)
    (by decide)

end CGSpins
